import Mathlib

/-!
Verification of the Fieldforce TCM serial-protocol driver (`pni.py`).

The development shallowly embeds the protocol layer of the driver:

* bytes are `Nat` values (with `< 256` well-formedness hypotheses where the
  Python `bytes` type guarantees them);
* the CRC-16 used by the driver (`crcmod.mkCrcFun(0x11021, 0, False)`, i.e.
  generator polynomial X^16+X^12+X^5+1, initial register 0, no reflection,
  no final complement) is embedded as the standard MSB-first shift register
  it denotes;
* IEEE-754 float32/float64 values that the driver merely unpacks or packs,
  never computes with, are represented by their bit patterns;
* the serial channel is a finite list of bytes: receiving parses a prefix
  of the list, sending appends to the list;
* Python exceptions (`IOError`, `struct.error`, `KeyError`, `IndexError`,
  `AssertionError`, `TypeError`) become `Except`/`Option` failures.
-/

namespace Pni

/-- Failure modes of the driver, mirroring the Python exceptions raised by
`pni.py` (checksum `IOError`, unexpected-frame `IOError`, unexpected config
response id `IOError`, dictionary `KeyError`, `AssertionError` on caller
contract violations, blocking/short reads, and `struct` packing errors). -/
inductive PniError where
  | checksumMismatch
  | unexpectedFrame (fid : Nat)
  | unexpectedResponseId (cid : Nat)
  | unknownIdentifier
  | invalidArgument
  | shortRead
  | formatError
  deriving DecidableEq, Repr

/-- Scalar type tags of the `Struct` objects used by the component and
configuration registries (`struct_uint8`, `struct_uint16`, `struct_uint32`,
`struct_float32`, `struct_boolean` in the source). -/
inductive SType where
  | uint8
  | uint16
  | uint32
  | float32
  | boolean
  deriving DecidableEq, Repr

/-- Packed byte size of each scalar type (the `Struct.size` of the
corresponding big-endian format string). -/
def SType.size : SType → Nat
  | .uint8 => 1
  | .uint16 => 2
  | .uint32 => 4
  | .float32 => 4
  | .boolean => 1

/-- Decoded scalar value.  Float32 values carry their IEEE-754 bit
pattern; no arithmetic is ever performed on them by the driver. -/
inductive Value where
  | u8 (n : Nat)
  | u16 (n : Nat)
  | u32 (n : Nat)
  | f32 (bits : Nat)
  | vbool (b : Bool)
  deriving DecidableEq, Repr

/-- Big-endian interpretation of a byte list, as done by `struct.unpack`
with formats such as `>H`, `>I`, `>f`. -/
def beNat (bs : List Nat) : Nat := bs.foldl (fun a b => a * 256 + b) 0

/-- Decode a scalar of the given type from its packed big-endian bytes
(`Struct.unpack`).  A boolean (`>?`) is true iff its single byte is
non-zero. -/
def decodeScalar : SType → List Nat → Value
  | .uint8, bs => .u8 (beNat bs)
  | .uint16, bs => .u16 (beNat bs)
  | .uint32, bs => .u32 (beNat bs)
  | .float32, bs => .f32 (beNat bs)
  | .boolean, bs => .vbool (decide (beNat bs ≠ 0))

/-- Big-endian two-byte encoding of a 16-bit integer (`struct.pack('>H', n)`;
the pack call raises unless `n < 65536`, under which the `% 256` is the
identity on the high byte). -/
def toBytes2 (n : Nat) : List Nat := [n / 256 % 256, n % 256]

/-- Big-endian four-byte encoding of a 32-bit integer (`struct.pack('>I', n)`
or a float32 bit pattern via `>f`). -/
def toBytes4 (n : Nat) : List Nat :=
  [n / 16777216 % 256, n / 65536 % 256, n / 256 % 256, n % 256]

/-- Big-endian eight-byte encoding of a float64 bit pattern
(`struct.pack('>d', v)` applied to the double with that pattern). -/
def f64be (v : Nat) : List Nat :=
  [v / 72057594037927936 % 256, v / 281474976710656 % 256,
   v / 1099511627776 % 256, v / 4294967296 % 256,
   v / 16777216 % 256, v / 65536 % 256, v / 256 % 256, v % 256]

/-! ### Checksum engine

`self.crc = crcmod.mkCrcFun(0b10001000000100001, 0, False)` denotes the
16-bit CRC with generator polynomial 0x11021, initial register value 0,
bytes processed most-significant-bit first (no reflection) and no final
complement.  `crcShift` is one shift of the 16-bit register, `crcByte`
feeds one byte into the register, `crc16` runs over a byte string. -/

/-- One left shift of the 16-bit CRC register: if the top bit is set, the
shifted register is reduced by the generator polynomial (low 16 bits
0x1021 = 4129). -/
def crcShift (c : Nat) : Nat :=
  if c < 32768 then c * 2 else (c * 2 % 65536) ^^^ 4129

/-- Feed one byte into the CRC register: xor the byte into the top 8 bits
and shift eight times. -/
def crcByte (c b : Nat) : Nat := crcShift^[8] (c ^^^ b * 256)

/-- CRC-16 of a byte string with initial register 0 (the function the
driver builds with `crcmod.mkCrcFun(0x11021, 0, False)`). -/
def crc16 (bs : List Nat) : Nat := bs.foldl crcByte 0

/-! ### Frame codec (`_sendMessage` / `_recvMessage`) -/

/-- Bytes written by `_sendMessage(frame_id, payload)`: a big-endian
`uint16` length equal to `len(payload) + 5`, the frame id byte, the
payload, then the CRC-16 of all preceding bytes appended big-endian. -/
def encodeFrame (fid : Nat) (payload : List Nat) : List Nat :=
  toBytes2 (payload.length + 5) ++ fid :: payload ++
    toBytes2 (crc16 (toBytes2 (payload.length + 5) ++ fid :: payload))

/-- Frame decoding performed by `_recvMessage` over a buffered byte
stream: read two length bytes, fail like `struct` does if the implied
payload length `count - 5` is negative, read the frame id byte, `count - 5`
payload bytes and two CRC bytes, recompute the CRC over the reconstructed
header and compare.  Bytes beyond the frame are left unread. -/
def decodeFrame (s : List Nat) : Except PniError (Nat × List Nat) :=
  match s with
  | c1 :: c2 :: rest =>
    if c1 * 256 + c2 < 5 then .error .formatError
    else
      match rest with
      | fid :: rest2 =>
        match rest2.drop (c1 * 256 + c2 - 5) with
        | k1 :: k2 :: _ =>
          if crc16 (c1 :: c2 :: fid :: rest2.take (c1 * 256 + c2 - 5)) =
              k1 * 256 + k2 then
            .ok (fid, rest2.take (c1 * 256 + c2 - 5))
          else .error .checksumMismatch
        | _ => .error .shortRead
      | [] => .error .shortRead
  | _ => .error .shortRead

/-! ### Frame id constants (class `FrameID`) -/

def kSetDataComponents : Nat := 3
def kGetData : Nat := 4
def kDataResp : Nat := 5
def kSetConfig : Nat := 6
def kGetConfig : Nat := 7
def kConfigResp : Nat := 8
def kSetParam : Nat := 12
def kGetParam : Nat := 13
def kParamResp : Nat := 14
def kUserCalSampCount : Nat := 17
def kUserCalScore : Nat := 18
def kSetConfigDone : Nat := 19
def kSetParamDone : Nat := 20
def kStartIntervalMode : Nat := 21
def kStopIntervalMode : Nat := 22

/-! ### Registries -/

/-- Data component registry (`FieldforceTCM.components`): component id to
`Component(name, struct)`.  Note the names `XAligned`, `YAligned`,
`ZAligned` for ids 27, 28, 29 — these do not match the `Datum` fields
`KXAligned`, `KYAligned`, `KZAligned`. -/
def components : Nat → Option (String × SType)
  | 5 => some ("Heading", .float32)
  | 7 => some ("Temperature", .float32)
  | 8 => some ("Distortion", .boolean)
  | 9 => some ("CalStatus", .boolean)
  | 21 => some ("PAligned", .float32)
  | 22 => some ("RAligned", .float32)
  | 23 => some ("IZAligned", .float32)
  | 24 => some ("PAngle", .float32)
  | 25 => some ("RAngle", .float32)
  | 27 => some ("XAligned", .float32)
  | 28 => some ("YAligned", .float32)
  | 29 => some ("ZAligned", .float32)
  | _ => none

/-- Configuration registry (`FieldforceTCM.config`): configuration id to
`Component(name, struct)`. -/
def config : Nat → Option (String × SType)
  | 1 => some ("Declination", .float32)
  | 2 => some ("TrueNorth", .boolean)
  | 6 => some ("BigEndian", .boolean)
  | 10 => some ("MountingRef", .uint8)
  | 12 => some ("UserCalNumPoints", .uint32)
  | 13 => some ("UserCalAutoSampling", .boolean)
  | 14 => some ("BaudRate", .uint8)
  | 15 => some ("MilOutput", .boolean)
  | 16 => some ("DataCal", .boolean)
  | 18 => some ("CoeffCopySet", .uint32)
  | 19 => some ("AccelCoeffCopySet", .uint32)
  | _ => none

/-! ### Datum assembly (`Datum`, `_createDatum`, `getData`) -/

/-- The `Datum` namedtuple: one optional slot per field, in source order.
The last three fields are spelled `KXAligned`, `KYAligned`, `KZAligned`
exactly as in the source. -/
structure Datum where
  Heading : Option Value
  Temperature : Option Value
  Distortion : Option Value
  CalStatus : Option Value
  PAligned : Option Value
  RAligned : Option Value
  IZAligned : Option Value
  PAngle : Option Value
  RAngle : Option Value
  KXAligned : Option Value
  KYAligned : Option Value
  KZAligned : Option Value
  deriving DecidableEq, Repr

/-- The field names of `Datum` (`Datum._fields`). -/
def datumFields : List String :=
  ["Heading", "Temperature", "Distortion", "CalStatus",
   "PAligned", "RAligned", "IZAligned",
   "PAngle", "RAngle", "KXAligned", "KYAligned", "KZAligned"]

/-- Insert or overwrite a key in a Python-dict-like association list. -/
def dset : List (String × Value) → String → Value → List (String × Value)
  | [], k, v => [(k, v)]
  | (k2, v2) :: t, k, v =>
    if k2 = k then (k, v) :: t else (k2, v2) :: dset t k v

/-- Look a key up in the association list. -/
def dget (d : List (String × Value)) (k : String) : Option Value :=
  (d.find? (fun kv => kv.1 == k)).map Prod.snd

/-- `_createDatum(data)`: fill every `Datum` field missing from the dict
with `None`, then build `Datum(**data)`.  The keyword construction raises
`TypeError` (here: `none`) if the dict holds any key that is not a `Datum`
field. -/
def createDatum (d : List (String × Value)) : Option Datum :=
  if d.all (fun kv => datumFields.contains kv.1) then
    some ⟨dget d "Heading", dget d "Temperature", dget d "Distortion",
          dget d "CalStatus", dget d "PAligned", dget d "RAligned",
          dget d "IZAligned", dget d "PAngle", dget d "RAngle",
          dget d "KXAligned", dget d "KYAligned", dget d "KZAligned"⟩
  else none

/-- The component-parsing loop of `getData`: read `n` components, each a
component id byte followed by the packed value whose width is given by the
registry.  Unknown ids (`KeyError`) and truncated values (`struct.error` /
`IndexError`) fail; bytes left over after the `n` components are ignored,
as in the source. -/
def parseComponents : Nat → List Nat → List (String × Value) →
    Option (List (String × Value))
  | 0, _, acc => some acc
  | _ + 1, [], _ => none
  | n + 1, cid :: rest, acc =>
    match components cid with
    | none => none
    | some c =>
      if c.2.size ≤ rest.length then
        parseComponents n (rest.drop c.2.size)
          (dset acc c.1 (decodeScalar c.2 (rest.take c.2.size)))
      else none

/-- Payload handling of `getData()`: the first payload byte is the
component count, then the parsing loop runs and `_createDatum` assembles
the result. -/
def getDataParse (payload : List Nat) : Option Datum :=
  match payload with
  | [] => none
  | cnt :: rest =>
    match parseComponents cnt rest [] with
    | none => none
    | some d => createDatum d

/-! ### Configuration commands (`setConfig` / `getConfig`) -/

/-- Pack a scalar value (`Struct.pack`).  A value of the wrong shape or
out of range raises `struct.error`. -/
def packScalar : SType → Value → Option (List Nat)
  | .uint8, .u8 n => if n < 256 then some [n] else none
  | .uint16, .u16 n => if n < 65536 then some (toBytes2 n) else none
  | .uint32, .u32 n => if n < 4294967296 then some (toBytes4 n) else none
  | .float32, .f32 b => if b < 4294967296 then some (toBytes4 b) else none
  | .boolean, .vbool b => some [if b then 1 else 0]
  | _, _ => none

/-- Request phase of `setConfig(config_id, value)` threaded over the
channel: pack the id byte (`struct_uint8.pack`, failing for ids ≥ 256),
look the id up in the configuration registry (`KeyError` when absent),
pack the value, and only then write the framed message.  The returned
channel is unchanged on every failure.  The subsequent wait for
`kSetConfigDone` reads from the device and writes nothing. -/
def setConfig (cfgId : Nat) (v : Value) (chan : List Nat) :
    Except PniError Unit × List Nat :=
  if cfgId < 256 then
    match config cfgId with
    | none => (.error .unknownIdentifier, chan)
    | some c =>
      match packScalar c.2 v with
      | none => (.error .formatError, chan)
      | some vb => (.ok (), chan ++ encodeFrame kSetConfig (cfgId :: vb))
  else (.error .formatError, chan)

/-- Response handling of `getConfig(config_id)`: the first byte of the
`kConfigResp` payload must equal the requested id, otherwise the driver
raises the unexpected-configuration-id `IOError`; on a match the remaining
bytes are unpacked with the registry's struct for that id. -/
def getConfig (cfgId : Nat) (response : List Nat) : Except PniError Value :=
  match response with
  | [] => .error .shortRead
  | rid :: rest =>
    if rid = cfgId then
      match config cfgId with
      | none => .error .unknownIdentifier
      | some c =>
        if rest.length = c.2.size then .ok (decodeScalar c.2 rest)
        else .error .formatError
    else .error (.unexpectedResponseId rid)

/-! ### FIR filter (`fir_defaults`, `setFilter`) -/

/-- Default FIR coefficient tables (`FieldforceTCM.fir_defaults`).  Each
coefficient is the IEEE-754 float64 bit pattern of the decimal literal in
the source. -/
def firDefaults : Nat → Option (List Nat)
  | 0 => some []
  | 4 => some
      [0x3fa7ea327a23b249, 0x3fdd02b9b0bb89ff,
       0x3fdd02b9b0bb89ff, 0x3fa7ea327a23b249]
  | 8 => some
      [0x3f945a3f0fd9ef4b, 0x3fb08320f1051e25,
       0x3fc54bb80d208629, 0x3fcfe76f9861acb7,
       0x3fcfe76f9861acb7, 0x3fc54bb80d208629,
       0x3fb08320f1051e25, 0x3f945a3f0fd9ef4b]
  | 16 => some
      [0x3f8053e272bbb406, 0x3f8a07bae58e014e,
       0x3f9a983e7b51d305, 0x3fa7c88cca63e3d7,
       0x3fb22ea3869edefc, 0x3fb86925250bb5fd,
       0x3fbd666ff41131ac, 0x3fc015fed89a4e58,
       0x3fc015fed89a4e58, 0x3fbd666ff41131ac,
       0x3fb86925250bb5fd, 0x3fb22ea3869edefc,
       0x3fa7c88cca63e3d7, 0x3f9a983e7b51d305,
       0x3f8a07bae58e014e, 0x3f8053e272bbb406]
  | 32 => some
      [0x3f5849857477960a, 0x3f60fce3df5ec5b2,
       0x3f6ad5b594fa1c8c, 0x3f75bfb551bc1cc5,
       0x3f81154da034ee35, 0x3f8982f83bd6abf1,
       0x3f9211ce7730d4a2, 0x3f985daa580e37c4,
       0x3f9f6c488d741567, 0x3fa3769d5e027bc9,
       0x3fa73f05390f7fa7, 0x3faad8e7f9f2eb01,
       0x3fae0d07d08131ed, 0x3fb0540203564f5e,
       0x3fb13f62f27c4b8d, 0x3fb1b922902bb62a,
       0x3fb1b922902bb62a, 0x3fb13f62f27c4b8d,
       0x3fb0540203564f5e, 0x3fae0d07d08131ed,
       0x3faad8e7f9f2eb01, 0x3fa73f05390f7fa7,
       0x3fa3769d5e027bc9, 0x3f9f6c488d741567,
       0x3f985daa580e37c4, 0x3f9211ce7730d4a2,
       0x3f8982f83bd6abf1, 0x3f81154da034ee35,
       0x3f75bfb551bc1cc5, 0x3f6ad5b594fa1c8c,
       0x3f60fce3df5ec5b2, 0x3f5849857477960a]
  | _ => none

/-- Request phase of `setFilter(count, values)`.  The `assert count in
[0, 4, 8, 16, 32]` runs first; with no explicit coefficients the default
table for `count` is packed, otherwise `assert len(values) == count` runs
before anything is packed or sent.  On success the result is the framed
`kSetParam` message: header bytes param id 3 and axis id 1, the count
byte, then the float64 coefficients big-endian.  Coefficients are float64
bit patterns. -/
def setFilter (count : Nat) (values : Option (List Nat)) :
    Except PniError (List Nat) :=
  if count = 0 ∨ count = 4 ∨ count = 8 ∨ count = 16 ∨ count = 32 then
    match values with
    | none =>
      match firDefaults count with
      | some vs => .ok (encodeFrame kSetParam (3 :: 1 :: count :: vs.flatMap f64be))
      | none => .error .unknownIdentifier
    | some vs =>
      if vs.length = count then
        .ok (encodeFrame kSetParam (3 :: 1 :: count :: vs.flatMap f64be))
      else .error .invalidArgument
  else .error .invalidArgument

/-! ### Streaming and calibration -/

/-- `startStreaming(freq)` sends a fixed `kStartIntervalMode` frame with
an empty payload; the `freq` argument is never used. -/
def startStreaming (freq : Nat) : List Nat :=
  encodeFrame kStartIntervalMode []

/-- Calibration scores namedtuple (`CalScores`), six float32 bit
patterns. -/
structure CalScores where
  CalScore : Nat
  CalParam2 : Nat
  AccelCalScore : Nat
  DistError : Nat
  TiltError : Nat
  TiltRange : Nat
  deriving DecidableEq, Repr

/-- Observation returned by one call to `getCalibrationStatus`: the
source returns `(False, sample_num)` while sampling continues and
`(True, scores)` once calibration converged. -/
inductive CalStatus where
  | progress (sampleNum : Nat)
  | converged (scores : CalScores)
  deriving DecidableEq, Repr

/-- Big-endian float32 bit pattern at index `i` of a packed `>6f`
message. -/
def f32at (msg : List Nat) (i : Nat) : Nat := beNat ((msg.drop (4 * i)).take 4)

/-- One call of `getCalibrationStatus()` over a queue of already-decoded
frames `(frame_id, payload)`: a `kUserCalSampCount` frame yields a
non-terminal sample-count observation (payload unpacked as `>I`), a
`kUserCalScore` frame yields the terminal scores observation (payload
unpacked as `>6f`), `kDataResp` frames are skipped, any other id raises
the unexpected-frame `IOError`.  The unconsumed frames are returned with
the observation. -/
def getCalibrationStatus :
    List (Nat × List Nat) → Except PniError (CalStatus × List (Nat × List Nat))
  | [] => .error .shortRead
  | (fid, msg) :: rest =>
    if fid = kUserCalSampCount then
      if msg.length = 4 then .ok (.progress (beNat msg), rest)
      else .error .formatError
    else if fid = kUserCalScore then
      if msg.length = 24 then
        .ok (.converged ⟨f32at msg 0, f32at msg 1, f32at msg 2,
                         f32at msg 3, f32at msg 4, f32at msg 5⟩, rest)
      else .error .formatError
    else if fid = kDataResp then getCalibrationStatus rest
    else .error (.unexpectedFrame fid)

/-! ### Specification-side CRC

`crcSpecBit`, `bitsMSB` and `crcSpec` are modelled from the spec's words
for the refinement claim, not from the source: a 16-bit CRC with
generator polynomial 0x11021 (X¹⁶+X¹²+X⁵+1), initial register value 0,
input and output not bit-reflected, result not complemented.  The message
is processed one bit at a time, most significant bit of each byte first;
after each bit the register holds the remainder of (bits-so-far · x¹⁶)
modulo the generator polynomial over GF(2), and the final register is
returned unchanged. -/

/-- One message bit enters the specification CRC: the register is
multiplied by x, the bit contributes b·x¹⁶, and the result is reduced by
the degree-16 generator 0x11021 = 69665 when it reaches degree 16. -/
def crcSpecBit (r : Nat) (b : Bool) : Nat :=
  if r * 2 ^^^ (if b then 65536 else 0) < 65536 then
    r * 2 ^^^ (if b then 65536 else 0)
  else (r * 2 ^^^ (if b then 65536 else 0)) ^^^ 69665

/-- The low `j` bits of a byte, most significant first (no
reflection). -/
def bitsMSB : Nat → Nat → List Bool
  | 0, _ => []
  | j + 1, b => b.testBit j :: bitsMSB j b

/-- Specification CRC of a byte string: fold the bit steps over all bits
of the message, most significant bit of each byte first, initial register
0, result not complemented. -/
def crcSpec (bs : List Nat) : Nat :=
  (bs.flatMap (bitsMSB 8)).foldl crcSpecBit 0

/-! ## Theorems -/

/-! ### CRC register toolkit -/

theorem xor_left_cancel {a b c : Nat} (h : a ^^^ b = a ^^^ c) : b = c := by
  have h2 : a ^^^ (a ^^^ b) = a ^^^ (a ^^^ c) := by rw [h]
  simpa [← Nat.xor_assoc, Nat.xor_self, Nat.zero_xor] using h2

theorem xor_right_cancel {a b c : Nat} (h : b ^^^ a = c ^^^ a) : b = c := by
  apply xor_left_cancel
  rw [Nat.xor_comm a b, Nat.xor_comm a c]
  exact h

theorem xor_lt_65536 {a b : Nat} (ha : a < 65536) (hb : b < 65536) :
    a ^^^ b < 65536 := by
  have h65 : (65536 : Nat) = 2 ^ 16 := by norm_num
  rw [h65] at ha hb ⊢
  exact Nat.xor_lt_two_pow ha hb

theorem crcShift_lt (c : Nat) : crcShift c < 65536 := by
  unfold crcShift
  split
  · omega
  · exact xor_lt_65536 (by omega) (by omega)

theorem iter_crcShift_lt : ∀ (n c : Nat), c < 65536 → crcShift^[n] c < 65536
  | 0, _, h => h
  | n + 1, c, _ => iter_crcShift_lt n (crcShift c) (crcShift_lt c)

theorem crcByte_lt {c b : Nat} (hc : c < 65536) (hb : b < 256) :
    crcByte c b < 65536 :=
  iter_crcShift_lt 8 _ (xor_lt_65536 hc (by omega))

theorem foldl_crcByte_lt (bs : List Nat) : ∀ (c : Nat), (∀ b ∈ bs, b < 256) →
    c < 65536 → List.foldl crcByte c bs < 65536 := by
  induction bs with
  | nil => intro c _ hc; simpa using hc
  | cons b t ih =>
    intro c h hc
    rw [List.foldl_cons]
    exact ih _ (fun x hx => h x (List.mem_cons_of_mem _ hx))
      (crcByte_lt hc (h b (List.mem_cons_self _ _)))

theorem crc16_lt (bs : List Nat) (h : ∀ b ∈ bs, b < 256) : crc16 bs < 65536 :=
  foldl_crcByte_lt bs 0 h (by omega)

theorem crcShift_inj {a b : Nat} (ha : a < 65536) (hb : b < 65536)
    (h : crcShift a = crcShift b) : a = b := by
  unfold crcShift at h
  by_cases h1 : a < 32768 <;> by_cases h2 : b < 32768
  · rw [if_pos h1, if_pos h2] at h
    omega
  · rw [if_pos h1, if_neg h2] at h
    exfalso
    have hx : (b * 2 % 65536 ^^^ 4129) % 2 = 1 := by
      rw [Nat.xor_mod_two_eq_one]
      omega
    omega
  · rw [if_neg h1, if_pos h2] at h
    exfalso
    have hx : (a * 2 % 65536 ^^^ 4129) % 2 = 1 := by
      rw [Nat.xor_mod_two_eq_one]
      omega
    omega
  · rw [if_neg h1, if_neg h2] at h
    have h3 : a * 2 % 65536 = b * 2 % 65536 := xor_right_cancel h
    omega

theorem iter_crcShift_inj : ∀ (n : Nat) {a b : Nat}, a < 65536 → b < 65536 →
    crcShift^[n] a = crcShift^[n] b → a = b
  | 0, _, _, _, _, h => h
  | n + 1, _, _, ha, hb, h =>
    crcShift_inj ha hb (iter_crcShift_inj n (crcShift_lt _) (crcShift_lt _) h)

theorem crcByte_inj_left {c1 c2 b : Nat} (h1 : c1 < 65536) (h2 : c2 < 65536)
    (hb : b < 256) (h : crcByte c1 b = crcByte c2 b) : c1 = c2 :=
  xor_right_cancel
    (iter_crcShift_inj 8 (xor_lt_65536 h1 (by omega)) (xor_lt_65536 h2 (by omega)) h)

theorem crcByte_ne_right {c x y : Nat} (hx : x < 256) (hy : y < 256)
    (hne : x ≠ y) (hc : c < 65536) : crcByte c x ≠ crcByte c y := by
  intro h
  have h2 := iter_crcShift_inj 8 (xor_lt_65536 hc (by omega))
    (xor_lt_65536 hc (by omega)) h
  have h3 := xor_left_cancel h2
  omega

theorem foldl_crcByte_ne (bs : List Nat) : ∀ {c1 c2 : Nat},
    (∀ b ∈ bs, b < 256) → c1 < 65536 → c2 < 65536 → c1 ≠ c2 →
    List.foldl crcByte c1 bs ≠ List.foldl crcByte c2 bs := by
  induction bs with
  | nil => intro c1 c2 _ _ _ hne; simpa using hne
  | cons b t ih =>
    intro c1 c2 h h1 h2 hne
    rw [List.foldl_cons, List.foldl_cons]
    exact ih (fun x hx => h x (List.mem_cons_of_mem _ hx))
      (crcByte_lt h1 (h b (List.mem_cons_self _ _)))
      (crcByte_lt h2 (h b (List.mem_cons_self _ _)))
      (fun he => hne (crcByte_inj_left h1 h2 (h b (List.mem_cons_self _ _)) he))

/-- CRC-16 error detection: two byte strings that agree everywhere except
in one byte have different checksums.  This follows from the injectivity
of each register step. -/
theorem crc16_ne_of_single_diff (p s : List Nat) {x y : Nat}
    (hp : ∀ b ∈ p, b < 256) (hs : ∀ b ∈ s, b < 256)
    (hx : x < 256) (hy : y < 256) (hne : x ≠ y) :
    crc16 (p ++ x :: s) ≠ crc16 (p ++ y :: s) := by
  unfold crc16
  rw [List.foldl_append, List.foldl_append, List.foldl_cons, List.foldl_cons]
  have hcp : List.foldl crcByte 0 p < 65536 := foldl_crcByte_lt p 0 hp (by omega)
  exact foldl_crcByte_ne s hs (crcByte_lt hcp hx) (crcByte_lt hcp hy)
    (crcByte_ne_right hx hy hne hcp)

/-! ### Frame codec toolkit -/

theorem headWF (fid : Nat) (P : List Nat) (hf : fid < 256)
    (hP : ∀ x ∈ P, x < 256) :
    ∀ x ∈ toBytes2 (P.length + 5) ++ fid :: P, x < 256 := by
  intro x hx
  rcases List.mem_append.1 hx with h | h
  · simp [toBytes2] at h
    rcases h with h | h <;> omega
  · rcases List.mem_cons.1 h with h | h
    · omega
    · exact hP x h

/-- Decoding a byte stream that has the shape of a frame reduces to the
checksum comparison. -/
theorem decodeFrame_shape (c1 c2 fid : Nat) (P : List Nat) (k1 k2 : Nat)
    (extra : List Nat) (h : c1 * 256 + c2 = P.length + 5) :
    decodeFrame (c1 :: c2 :: fid :: (P ++ k1 :: k2 :: extra)) =
      if crc16 (c1 :: c2 :: fid :: P) = k1 * 256 + k2 then .ok (fid, P)
      else .error .checksumMismatch := by
  have hd : (P ++ k1 :: k2 :: extra).drop (c1 * 256 + c2 - 5) =
      k1 :: k2 :: extra := List.drop_left' (by omega)
  have ht : (P ++ k1 :: k2 :: extra).take (c1 * 256 + c2 - 5) = P :=
    List.take_left' (by omega)
  have hc5 : ¬ (c1 * 256 + c2 < 5) := by omega
  simp only [decodeFrame, hd, ht, if_neg hc5]

theorem decodeFrame_shape_ne (c1 c2 fid : Nat) (P : List Nat) (k1 k2 : Nat)
    (extra : List Nat) (h : c1 * 256 + c2 = P.length + 5)
    (hne : crc16 (c1 :: c2 :: fid :: P) ≠ k1 * 256 + k2) :
    decodeFrame (c1 :: c2 :: fid :: (P ++ k1 :: k2 :: extra)) =
      .error .checksumMismatch := by
  rw [decodeFrame_shape c1 c2 fid P k1 k2 extra h, if_neg hne]

/-- C1: for every frame id and payload that `_sendMessage` can transmit
(id and payload bytes below 256, total length in range for the 16-bit
length field), `_recvMessage` over exactly the bytes `_sendMessage`
produced succeeds and returns the identical frame id and payload. -/
theorem encode_decode_roundtrip (fid : Nat) (P : List Nat) (hf : fid < 256)
    (hP : ∀ b ∈ P, b < 256) (hlen : P.length + 5 < 65536) :
    decodeFrame (encodeFrame fid P) = .ok (fid, P) := by
  have hc : crc16 (toBytes2 (P.length + 5) ++ fid :: P) < 65536 :=
    crc16_lt _ (headWF fid P hf hP)
  have hframe : encodeFrame fid P =
      (P.length + 5) / 256 % 256 :: (P.length + 5) % 256 :: fid ::
        (P ++ crc16 (toBytes2 (P.length + 5) ++ fid :: P) / 256 % 256 ::
          crc16 (toBytes2 (P.length + 5) ++ fid :: P) % 256 :: []) := rfl
  rw [hframe,
    decodeFrame_shape ((P.length + 5) / 256 % 256) ((P.length + 5) % 256) fid P
      (crc16 (toBytes2 (P.length + 5) ++ fid :: P) / 256 % 256)
      (crc16 (toBytes2 (P.length + 5) ++ fid :: P) % 256) [] (by omega)]
  rw [if_pos]
  have hh : (P.length + 5) / 256 % 256 :: (P.length + 5) % 256 :: fid :: P =
      toBytes2 (P.length + 5) ++ fid :: P := rfl
  rw [hh]
  omega

/-- Witness for C1: a concrete frame round-trips. -/
theorem encode_decode_roundtrip_witness :
    decodeFrame (encodeFrame 4 [1, 2, 3]) = .ok (4, [1, 2, 3]) :=
  encode_decode_roundtrip 4 [1, 2, 3] (by decide) (by decide) (by decide)

set_option maxRecDepth 16000 in
/-- C3 (counterexample): corrupting a length byte of an encoded frame can
make the decoder silently succeed instead of failing with the checksum
error.  The frame for id 1 with payload `[239, 212]` is
`[0, 7, 1, 239, 212, 237, 104]`; replacing the second length byte 7 with 5
makes the decoder read a zero-length payload and interpret the two former
payload bytes `239, 212` as the CRC, which happens to equal the CRC-16 of
the truncated header `[0, 5, 1]` — so decoding returns `(1, [])`. -/
theorem decode_corrupt_length_byte_succeeds :
    encodeFrame 1 [239, 212] = [0, 7, 1, 239, 212, 237, 104] ∧
    (encodeFrame 1 [239, 212]).getD 1 0 = 7 ∧
    decodeFrame ((encodeFrame 1 [239, 212]).set 1 5) = .ok (1, []) ∧
    decodeFrame ((encodeFrame 1 [239, 212]).set 1 5) ≠
      .error .checksumMismatch := by
  refine ⟨rfl, rfl, rfl, ?_⟩
  intro h
  rw [show decodeFrame ((encodeFrame 1 [239, 212]).set 1 5) = .ok (1, []) from
    rfl] at h
  exact Except.noConfusion h

/-- C3 (amended): replacing any single byte at a position `i ≥ 2` of an
encoded frame — the frame id byte, a payload byte, or a CRC byte, but not
one of the two length bytes — by a different byte value makes the decoder
fail with the checksum-mismatch error. -/
theorem decode_corrupted_nonlength_byte (fid : Nat) (P : List Nat) (i b : Nat)
    (hf : fid < 256) (hP : ∀ x ∈ P, x < 256) (hlen : P.length + 5 < 65536)
    (hi2 : 2 ≤ i) (hilen : i < (encodeFrame fid P).length) (hb : b < 256)
    (hne : b ≠ (encodeFrame fid P).getD i 0) :
    decodeFrame ((encodeFrame fid P).set i b) = .error .checksumMismatch := by
  obtain ⟨j, rfl⟩ : ∃ j, i = j + 2 := ⟨i - 2, by omega⟩
  have hcvlt : crc16 (toBytes2 (P.length + 5) ++ fid :: P) < 65536 :=
    crc16_lt _ (headWF fid P hf hP)
  have hframe : encodeFrame fid P =
      (P.length + 5) / 256 % 256 :: (P.length + 5) % 256 :: fid ::
        (P ++ crc16 (toBytes2 (P.length + 5) ++ fid :: P) / 256 % 256 ::
          crc16 (toBytes2 (P.length + 5) ++ fid :: P) % 256 :: []) := rfl
  rw [hframe] at hilen hne ⊢
  set cv := crc16 (toBytes2 (P.length + 5) ++ fid :: P) with hcv
  simp only [List.length_cons, List.length_append, List.length_nil] at hilen
  simp only [List.getD_cons_succ] at hne
  simp only [List.set_cons_succ]
  cases j with
  | zero =>
    rw [List.set_cons_zero]
    rw [List.getD_cons_zero] at hne
    apply decodeFrame_shape_ne
    · omega
    · have hr : cv / 256 % 256 * 256 + cv % 256 = cv := by omega
      rw [hr]
      have hb2 : (P.length + 5) / 256 % 256 :: (P.length + 5) % 256 :: b :: P =
          toBytes2 (P.length + 5) ++ b :: P := rfl
      rw [hb2, hcv]
      exact crc16_ne_of_single_diff (toBytes2 (P.length + 5)) P
        (by intro x hx; simp [toBytes2] at hx; rcases hx with h | h <;> omega)
        hP hb hf hne
  | succ m =>
    rw [List.set_cons_succ]
    simp only [List.getD_cons_succ] at hne
    by_cases hm : m < P.length
    · -- corruption of a payload byte
      rw [List.set_append_left m b hm]
      have hne2 : b ≠ P[m] := by
        have hgd : (P ++ cv / 256 % 256 :: cv % 256 :: []).getD m 0 = P[m] := by
          rw [List.getD_eq_getElem?_getD, List.getElem?_append_left hm,
            List.getElem?_eq_getElem hm]
          rfl
        rw [hgd] at hne
        exact hne
      have hPsplit : P.take m ++ P[m] :: P.drop (m + 1) = P := by
        conv_rhs => rw [← List.take_append_drop m P]
        rw [List.drop_eq_getElem_cons hm]
      rw [List.set_eq_take_cons_drop b hm]
      apply decodeFrame_shape_ne
      · simp only [List.length_append, List.length_take, List.length_cons,
          List.length_drop]
        omega
      · have hr : cv / 256 % 256 * 256 + cv % 256 = cv := by omega
        rw [hr, hcv]
        have h1 : (P.length + 5) / 256 % 256 :: (P.length + 5) % 256 :: fid ::
            (P.take m ++ b :: P.drop (m + 1)) =
            (toBytes2 (P.length + 5) ++ fid :: P.take m) ++
              b :: P.drop (m + 1) := by
          simp [toBytes2]
        have h2 : (toBytes2 (P.length + 5) ++ fid :: P.take m) ++
            P[m] :: P.drop (m + 1) = toBytes2 (P.length + 5) ++ fid :: P := by
          rw [List.append_assoc, List.cons_append, hPsplit]
        rw [h1, ← h2]
        exact crc16_ne_of_single_diff
          (toBytes2 (P.length + 5) ++ fid :: P.take m) (P.drop (m + 1))
          (by
            intro x hx
            rcases List.mem_append.1 hx with h | h
            · simp [toBytes2] at h
              rcases h with h | h <;> omega
            · rcases List.mem_cons.1 h with h | h
              · omega
              · exact hP x (List.mem_of_mem_take h))
          (fun x hx => hP x (List.mem_of_mem_drop hx))
          hb (hP _ (List.getElem_mem hm)) hne2
    · -- corruption of one of the two CRC bytes
      push_neg at hm
      rw [List.set_append_right m b hm]
      by_cases hm0 : m = P.length
      · subst hm0
        rw [Nat.sub_self, List.set_cons_zero]
        have hgd : (P ++ cv / 256 % 256 :: cv % 256 :: []).getD P.length 0 =
            cv / 256 % 256 := by
          rw [List.getD_eq_getElem?_getD,
            List.getElem?_append_right (Nat.le_refl _)]
          simp
        rw [hgd] at hne
        apply decodeFrame_shape_ne
        · omega
        · have hh : (P.length + 5) / 256 % 256 :: (P.length + 5) % 256 ::
              fid :: P = toBytes2 (P.length + 5) ++ fid :: P := rfl
          rw [hh, ← hcv]
          omega
      · have hm1 : m = P.length + 1 := by omega
        subst hm1
        rw [show P.length + 1 - P.length = 1 from by omega]
        rw [List.set_cons_succ, List.set_cons_zero]
        have hgd : (P ++ cv / 256 % 256 :: cv % 256 :: []).getD
            (P.length + 1) 0 = cv % 256 := by
          rw [List.getD_eq_getElem?_getD,
            List.getElem?_append_right (by omega)]
          simp [show P.length + 1 - P.length = 1 from by omega]
        rw [hgd] at hne
        apply decodeFrame_shape_ne
        · omega
        · have hh : (P.length + 5) / 256 % 256 :: (P.length + 5) % 256 ::
              fid :: P = toBytes2 (P.length + 5) ++ fid :: P := rfl
          rw [hh, ← hcv]
          omega

set_option maxRecDepth 16000 in
/-- Witness for C3 (amended): corrupting the first payload byte of a
concrete frame yields the checksum-mismatch error. -/
theorem decode_corrupted_nonlength_byte_witness :
    decodeFrame ((encodeFrame 4 [1, 2, 3]).set 3 2) =
      .error .checksumMismatch :=
  decode_corrupted_nonlength_byte 4 [1, 2, 3] 3 2 (by decide) (by decide)
    (by decide) (by decide) (by decide) (by decide) (by decide)

/-- C4: when the data-response payload to `getData()` contains exactly the
components `{5: 1.0 as big-endian float32, 8: true as one byte}`, the
resulting `Datum` has `Heading = 1.0` (bit pattern 0x3F800000),
`Distortion = true`, and every other field is `None`, not zero or
false. -/
theorem getData_heading_distortion :
    getDataParse [2, 5, 63, 128, 0, 0, 8, 1] =
      some ⟨some (.f32 1065353216), none, some (.vbool true), none, none,
            none, none, none, none, none, none, none⟩ := by
  decide

/-- C5 (code bug): the data-component registry names ids 27/28/29
`XAligned`/`YAligned`/`ZAligned`, but the `Datum` namedtuple fields are
`KXAligned`/`KYAligned`/`KZAligned`.  Hence `Datum(**data)` inside
`_createDatum` receives an unexpected keyword whenever an axis-aligned
component is present, raising `TypeError` (modeled as `none`) instead of
returning a `Datum` with the axis-aligned slot populated. -/
theorem getData_axis_aligned_crash :
    components 27 = some ("XAligned", .float32) ∧
    components 28 = some ("YAligned", .float32) ∧
    components 29 = some ("ZAligned", .float32) ∧
    datumFields.contains "XAligned" = false ∧
    datumFields.contains "KXAligned" = true ∧
    getDataParse [1, 27, 63, 128, 0, 0] = none ∧
    getDataParse [1, 28, 63, 128, 0, 0] = none ∧
    getDataParse [1, 29, 63, 128, 0, 0] = none := by
  decide

/-- C6: the calibration status step classifies each received frame: a
`kUserCalSampCount` frame yields the non-terminal `progress` observation
with a big-endian uint32 count, a `kUserCalScore` frame yields the
terminal `converged` observation with six big-endian float32 scores, a
`kDataResp` frame is silently skipped, and any other frame id fails with
the unexpected-frame error.  Feeding the sequence
`[sampleCount(1), sampleCount(2), dataFrame, score([1,2,3,4,5,6])]`
yields the observations `progress 1`, `progress 2`, then `converged` with
the float32 bit patterns of 1.0 … 6.0. -/
theorem getCalibrationStatus_spec :
    (∀ msg rest, msg.length = 4 →
      getCalibrationStatus ((kUserCalSampCount, msg) :: rest) =
        .ok (.progress (beNat msg), rest)) ∧
    (∀ msg rest, msg.length = 24 →
      getCalibrationStatus ((kUserCalScore, msg) :: rest) =
        .ok (.converged ⟨f32at msg 0, f32at msg 1, f32at msg 2,
                         f32at msg 3, f32at msg 4, f32at msg 5⟩, rest)) ∧
    (∀ msg rest, getCalibrationStatus ((kDataResp, msg) :: rest) =
        getCalibrationStatus rest) ∧
    (∀ fid msg rest, fid ≠ kUserCalSampCount → fid ≠ kUserCalScore →
      fid ≠ kDataResp →
      getCalibrationStatus ((fid, msg) :: rest) =
        .error (.unexpectedFrame fid)) ∧
    (getCalibrationStatus
        [(17, [0, 0, 0, 1]), (17, [0, 0, 0, 2]), (5, [1, 5, 63, 128, 0, 0]),
         (18, [63, 128, 0, 0, 64, 0, 0, 0, 64, 64, 0, 0,
               64, 128, 0, 0, 64, 160, 0, 0, 64, 192, 0, 0])] =
        .ok (.progress 1,
          [(17, [0, 0, 0, 2]), (5, [1, 5, 63, 128, 0, 0]),
           (18, [63, 128, 0, 0, 64, 0, 0, 0, 64, 64, 0, 0,
                 64, 128, 0, 0, 64, 160, 0, 0, 64, 192, 0, 0])]) ∧
     getCalibrationStatus
        [(17, [0, 0, 0, 2]), (5, [1, 5, 63, 128, 0, 0]),
         (18, [63, 128, 0, 0, 64, 0, 0, 0, 64, 64, 0, 0,
               64, 128, 0, 0, 64, 160, 0, 0, 64, 192, 0, 0])] =
        .ok (.progress 2,
          [(5, [1, 5, 63, 128, 0, 0]),
           (18, [63, 128, 0, 0, 64, 0, 0, 0, 64, 64, 0, 0,
                 64, 128, 0, 0, 64, 160, 0, 0, 64, 192, 0, 0])]) ∧
     getCalibrationStatus
        [(5, [1, 5, 63, 128, 0, 0]),
         (18, [63, 128, 0, 0, 64, 0, 0, 0, 64, 64, 0, 0,
               64, 128, 0, 0, 64, 160, 0, 0, 64, 192, 0, 0])] =
        .ok (.converged ⟨1065353216, 1073741824, 1077936128,
                         1082130432, 1084227584, 1086324736⟩, [])) := by
  refine ⟨?_, ?_, ?_, ?_, ?_, ?_, ?_⟩
  · intro msg rest h
    simp [getCalibrationStatus, kUserCalSampCount, h]
  · intro msg rest h
    simp [getCalibrationStatus, kUserCalSampCount, kUserCalScore, h]
  · intro msg rest
    simp [getCalibrationStatus, kUserCalSampCount, kUserCalScore, kDataResp]
  · intro fid msg rest h1 h2 h3
    simp [getCalibrationStatus, h1, h2, h3]
  · rfl
  · rfl
  · rfl

/-- Witness for C6: the general clauses applied at concrete inputs. -/
theorem getCalibrationStatus_spec_witness :
    getCalibrationStatus [(17, [0, 0, 0, 9])] = .ok (.progress 9, []) ∧
    getCalibrationStatus [(22, [])] = .error (.unexpectedFrame 22) := by
  constructor
  · have h := getCalibrationStatus_spec.1 [0, 0, 0, 9] [] (by decide)
    simpa [beNat] using h
  · exact getCalibrationStatus_spec.2.2.2.1 22 [] []
      (by decide) (by decide) (by decide)

/-- C7: `setFilter(count)` with no coefficients encodes the built-in
default table for that count after the header bytes param id 3 and axis
id 1 (shown fully expanded for the 4-tap table); supplying coefficients
whose length differs from `count` fails with the invalid-argument error
before anything is packed or sent; and any count outside
`{0, 4, 8, 16, 32}` is rejected as a caller contract violation. -/
theorem setFilter_spec :
    (∀ count, (count = 0 ∨ count = 4 ∨ count = 8 ∨ count = 16 ∨ count = 32) →
      ∃ vs, firDefaults count = some vs ∧
        setFilter count none =
          .ok (encodeFrame kSetParam (3 :: 1 :: count :: vs.flatMap f64be))) ∧
    (setFilter 4 none = .ok (encodeFrame kSetParam
      (3 :: 1 :: 4 ::
        [63, 167, 234, 50, 122, 35, 178, 73,
         63, 221, 2, 185, 176, 187, 137, 255,
         63, 221, 2, 185, 176, 187, 137, 255,
         63, 167, 234, 50, 122, 35, 178, 73]))) ∧
    (∀ count vs, vs.length ≠ count →
      setFilter count (some vs) = .error .invalidArgument) ∧
    (∀ count values,
      ¬(count = 0 ∨ count = 4 ∨ count = 8 ∨ count = 16 ∨ count = 32) →
      setFilter count values = .error .invalidArgument) := by
  refine ⟨?_, ?_, ?_, ?_⟩
  · intro count h
    rcases h with h | h | h | h | h <;> subst h <;>
      exact ⟨_, rfl, rfl⟩
  · rfl
  · intro count vs h
    by_cases hc : count = 0 ∨ count = 4 ∨ count = 8 ∨ count = 16 ∨ count = 32
    · simp [setFilter, hc, h]
    · simp [setFilter, hc]
  · intro count values h
    simp [setFilter, h]

/-- Witness for C7: the general clauses applied at concrete inputs. -/
theorem setFilter_spec_witness :
    (∃ vs, firDefaults 8 = some vs ∧
      setFilter 8 none =
        .ok (encodeFrame kSetParam (3 :: 1 :: 8 :: vs.flatMap f64be))) ∧
    setFilter 4 (some [1, 2, 3]) = .error .invalidArgument ∧
    setFilter 5 none = .error .invalidArgument := by
  refine ⟨setFilter_spec.1 8 (by decide), ?_, ?_⟩
  · exact setFilter_spec.2.2.1 4 [1, 2, 3] (by decide)
  · exact setFilter_spec.2.2.2 5 none (by decide)

/-- C8: `getConfig(id)` fails with the unexpected-response-id error
carrying the actual leading byte whenever that byte differs from the
requested id; when it matches, the value is decoded from the remaining
payload bytes with the configuration registry's scalar type for that
id. -/
theorem getConfig_spec :
    (∀ cfgId rid rest, rid ≠ cfgId →
      getConfig cfgId (rid :: rest) = .error (.unexpectedResponseId rid)) ∧
    (∀ cfgId nm ty rest, config cfgId = some (nm, ty) →
      rest.length = ty.size →
      getConfig cfgId (cfgId :: rest) = .ok (decodeScalar ty rest)) := by
  constructor
  · intro cfgId rid rest h
    simp [getConfig, h]
  · intro cfgId nm ty rest hcfg hlen
    simp [getConfig, hcfg, hlen]

/-- Witness for C8: `getConfig(1)` answered with leading byte 2 raises
the unexpected-response-id error with actual id 2; answered with leading
byte 1 and a float32 payload it returns the decoded value. -/
theorem getConfig_spec_witness :
    getConfig 1 [2, 0, 0, 0, 0] = .error (.unexpectedResponseId 2) ∧
    getConfig 1 [1, 63, 128, 0, 0] = .ok (.f32 1065353216) := by
  constructor
  · exact getConfig_spec.1 1 2 [0, 0, 0, 0] (by decide)
  · have h := getConfig_spec.2 1 "Declination" .float32 [63, 128, 0, 0]
      (by decide) (by decide)
    simpa [decodeScalar, beNat] using h

/-- C9: the bytes `startStreaming(freq)` writes are independent of the
`freq` argument — any two frequencies produce the identical fixed
`kStartIntervalMode` frame with an empty payload, so the requested
frequency is never transmitted to the device. -/
theorem startStreaming_freq_independent :
    (∀ f1 f2, startStreaming f1 = startStreaming f2) ∧
    (∀ f, startStreaming f = encodeFrame kStartIntervalMode []) :=
  ⟨fun _ _ => rfl, fun _ => rfl⟩

/-- C10: `setConfig(id, value)` with an id absent from the configuration
registry fails before any bytes are written: the packing of the id byte
and the registry lookup both precede the send, so on this error the
channel is returned completely unchanged. -/
theorem setConfig_absent_id_atomic :
    ∀ cfgId v chan, config cfgId = none →
      (setConfig cfgId v chan).2 = chan ∧
      (setConfig cfgId v chan).1 ≠ .ok () := by
  intro cfgId v chan h
  by_cases hlt : cfgId < 256
  · simp [setConfig, hlt, h]
  · simp [setConfig, hlt]

/-- Witness for C10: configuration id 3 is not in the registry; the
channel is unchanged and no success is reported. -/
theorem setConfig_absent_id_atomic_witness :
    (setConfig 3 (.u8 1) [9, 9]).2 = [9, 9] ∧
    (setConfig 3 (.u8 1) [9, 9]).1 ≠ .ok () :=
  setConfig_absent_id_atomic 3 (.u8 1) [9, 9] rfl

/-! ### Refinement of the byte-level CRC to the specification CRC -/

theorem shiftLeft_one (x : Nat) : x * 2 = x <<< 1 := by
  rw [Nat.shiftLeft_eq, pow_one]

theorem two_mul_xor (a b : Nat) : (a ^^^ b) * 2 = a * 2 ^^^ b * 2 := by
  rw [shiftLeft_one, shiftLeft_one, shiftLeft_one]
  apply Nat.eq_of_testBit_eq
  intro i
  rw [Nat.testBit_shiftLeft, Nat.testBit_xor, Nat.testBit_xor,
    Nat.testBit_shiftLeft, Nat.testBit_shiftLeft]
  by_cases hi : 1 ≤ i <;> simp [hi]

theorem xor_mod_two_pow (a b k : Nat) :
    (a ^^^ b) % 2 ^ k = a % 2 ^ k ^^^ b % 2 ^ k := by
  apply Nat.eq_of_testBit_eq
  intro j
  rw [Nat.testBit_mod_two_pow, Nat.testBit_xor, Nat.testBit_xor,
    Nat.testBit_mod_two_pow, Nat.testBit_mod_two_pow]
  by_cases hj : j < k <;> simp [hj]

theorem add_mul_pow_eq_xor (a b i : Nat) (hb : b < 2 ^ i) :
    2 ^ i * a + b = 2 ^ i * a ^^^ b := by
  apply Nat.eq_of_testBit_eq
  intro j
  rw [Nat.testBit_mul_pow_two_add a hb j, Nat.testBit_xor,
    Nat.testBit_mul_pow_two]
  by_cases hj : j < i
  · cases hbj : b.testBit j <;>
      simp [hj, show ¬ i ≤ j from by omega, hbj]
  · have hge : i ≤ j := by omega
    have hbj : b.testBit j = false :=
      Nat.testBit_lt_two_pow
        (lt_of_lt_of_le hb (Nat.pow_le_pow_right (by omega) hge))
    simp [hj, hge, hbj]

theorem xor_xor_cancel (a x y : Nat) : (a ^^^ x) ^^^ (a ^^^ y) = x ^^^ y := by
  rw [Nat.xor_comm a x, Nat.xor_assoc, ← Nat.xor_assoc a a y, Nat.xor_self,
    Nat.zero_xor]

theorem xor_reduce_eq {t : Nat} (h1 : 65536 ≤ t) (h2 : t < 131072) :
    t ^^^ 69665 = t % 65536 ^^^ 4129 := by
  have hp : (2 : Nat) ^ 16 = 65536 := by norm_num
  have he : t = 2 ^ 16 * 1 + t % 65536 := by rw [hp]; omega
  have h69 : (69665 : Nat) = 2 ^ 16 * 1 + 4129 := by norm_num
  have hm : t % 65536 < 2 ^ 16 := by rw [hp]; omega
  conv_lhs => rw [he, h69]
  rw [add_mul_pow_eq_xor 1 (t % 65536) 16 hm,
    add_mul_pow_eq_xor 1 4129 16 (by rw [hp]; omega)]
  exact xor_xor_cancel _ _ _

theorem crcSpecBit_lt {r : Nat} (b : Bool) (hr : r < 65536) :
    crcSpecBit r b < 65536 := by
  unfold crcSpecBit
  by_cases h : r * 2 ^^^ (if b then 65536 else 0) < 65536
  · rw [if_pos h]
    exact h
  · rw [if_neg h]
    have h17 : r * 2 ^^^ (if b then 65536 else 0) < 131072 := by
      have hp : (131072 : Nat) = 2 ^ 17 := by norm_num
      have ha : r * 2 < 131072 := by omega
      have hb2 : (if b then 65536 else 0) < 131072 := by split <;> omega
      rw [hp] at ha hb2 ⊢
      exact Nat.xor_lt_two_pow ha hb2
    rw [xor_reduce_eq (by omega) h17]
    exact xor_lt_65536 (by omega) (by omega)

/-- The specification bit step agrees with one source register shift on a
state whose top half carries the incoming bit. -/
theorem crcSpecBit_eq_crcShift (c : Nat) (hb : Bool) (hc : c < 65536) :
    crcSpecBit c hb = crcShift (c ^^^ (if hb then 32768 else 0)) := by
  have he : c ^^^ (if hb then 32768 else 0) < 65536 :=
    xor_lt_65536 hc (by split <;> omega)
  have ht : c * 2 ^^^ (if hb then 65536 else 0) =
      (c ^^^ (if hb then 32768 else 0)) * 2 := by
    cases hb
    · simp
    · simp only [if_pos]
      rw [two_mul_xor]
  unfold crcSpecBit crcShift
  rw [ht]
  by_cases hlt : c ^^^ (if hb then 32768 else 0) < 32768
  · rw [if_pos hlt, if_pos (by omega)]
  · rw [if_neg hlt, if_neg (by omega)]
    exact xor_reduce_eq (by omega) (by omega)

/-- A register shift commutes with xoring bits strictly below the top
bit. -/
theorem crcShift_xor_low {e m : Nat} (he : e < 65536) (hm : m < 32768) :
    crcShift (e ^^^ m) = crcShift e ^^^ m * 2 := by
  unfold crcShift
  by_cases hlt : e < 32768
  · have h1 : e ^^^ m < 32768 := by
      have h15 : (32768 : Nat) = 2 ^ 15 := by norm_num
      rw [h15] at hlt hm ⊢
      exact Nat.xor_lt_two_pow hlt hm
    rw [if_pos h1, if_pos hlt, two_mul_xor]
  · have hp : (2 : Nat) ^ 15 = 32768 := by norm_num
    have hbit : Nat.testBit e 15 = true := by
      rw [Nat.testBit_to_div_mod, hp]
      simp only [decide_eq_true_eq]
      omega
    have hbitm : Nat.testBit m 15 = false :=
      Nat.testBit_lt_two_pow (by rw [hp]; omega)
    have h1 : ¬ (e ^^^ m < 32768) := by
      have htb : Nat.testBit (e ^^^ m) 15 = true := by
        rw [Nat.testBit_xor, hbit, hbitm]
        rfl
      have hge := Nat.testBit_implies_ge htb
      rw [hp] at hge
      omega
    rw [if_neg h1, if_neg hlt, two_mul_xor]
    have h65 : (65536 : Nat) = 2 ^ 16 := by norm_num
    rw [h65, xor_mod_two_pow]
    rw [Nat.mod_eq_of_lt (show m * 2 < 2 ^ 16 from by rw [← h65]; omega)]
    rw [Nat.xor_assoc, Nat.xor_assoc, Nat.xor_comm (m * 2) 4129]

/-- One source register shift consumes the top pending message bit. -/
theorem crcShift_step (c b j : Nat) (hj : j ≤ 15) (hc : c < 65536)
    (hb : b < 2 ^ (j + 1)) :
    crcShift (c ^^^ b * 2 ^ (15 - j)) =
      crcSpecBit c (b.testBit j) ^^^ b % 2 ^ j * 2 ^ (16 - j) := by
  have hq : b / 2 ^ j ≤ 1 := by
    by_contra hq
    push_neg at hq
    have ha : 2 ^ j * 2 ≤ 2 ^ j * (b / 2 ^ j) :=
      Nat.mul_le_mul_left _ (by omega)
    have hb2 : b / 2 ^ j * 2 ^ j ≤ b := Nat.div_mul_le_self b (2 ^ j)
    have h3 : 2 ^ (j + 1) = 2 ^ j * 2 := by rw [pow_succ]
    have h4 : 2 ^ j * (b / 2 ^ j) = b / 2 ^ j * 2 ^ j := Nat.mul_comm _ _
    omega
  have hbeq : b = 2 ^ j * (b / 2 ^ j) + b % 2 ^ j :=
    (Nat.div_add_mod b (2 ^ j)).symm
  have hr : b % 2 ^ j < 2 ^ j := Nat.mod_lt _ (Nat.two_pow_pos j)
  have hpj : 2 ^ j * 2 ^ (15 - j) = 2 ^ 15 := by
    rw [← pow_add]
    congr 1
    omega
  have hA : b * 2 ^ (15 - j) =
      2 ^ 15 * (b / 2 ^ j) + b % 2 ^ j * 2 ^ (15 - j) := by
    conv_lhs => rw [hbeq]
    rw [Nat.add_mul]
    congr 1
    calc 2 ^ j * (b / 2 ^ j) * 2 ^ (15 - j)
        = b / 2 ^ j * (2 ^ j * 2 ^ (15 - j)) := by ring
      _ = b / 2 ^ j * 2 ^ 15 := by rw [hpj]
      _ = 2 ^ 15 * (b / 2 ^ j) := Nat.mul_comm _ _
  have hmlt : b % 2 ^ j * 2 ^ (15 - j) < 2 ^ 15 := by
    have h2 : b % 2 ^ j * 2 ^ (15 - j) < 2 ^ j * 2 ^ (15 - j) :=
      mul_lt_mul_of_pos_right hr (pow_pos (by norm_num) _)
    rw [hpj] at h2
    exact h2
  have hB : 2 ^ 15 * (b / 2 ^ j) + b % 2 ^ j * 2 ^ (15 - j) =
      2 ^ 15 * (b / 2 ^ j) ^^^ b % 2 ^ j * 2 ^ (15 - j) :=
    add_mul_pow_eq_xor _ _ _ hmlt
  have hbit : 2 ^ 15 * (b / 2 ^ j) = if b.testBit j then 32768 else 0 := by
    rw [Nat.testBit_to_div_mod]
    have hq01 : b / 2 ^ j = 0 ∨ b / 2 ^ j = 1 := by omega
    rcases hq01 with h0 | h1
    · rw [h0]
      norm_num
    · rw [h1]
      norm_num
  rw [hA, hB, hbit, ← Nat.xor_assoc]
  have hm2 : b % 2 ^ j * 2 ^ (15 - j) < 32768 := by
    have hp : (2 : Nat) ^ 15 = 32768 := by norm_num
    rw [hp] at hmlt
    exact hmlt
  rw [crcShift_xor_low (xor_lt_65536 hc (by split <;> omega)) hm2]
  rw [← crcSpecBit_eq_crcShift c (b.testBit j) hc]
  congr 1
  rw [Nat.mul_assoc, ← pow_succ]
  have : 15 - j + 1 = 16 - j := by omega
  rw [this]

theorem bitsMSB_mod : ∀ (j m b : Nat), j ≤ m →
    bitsMSB j (b % 2 ^ m) = bitsMSB j b
  | 0, _, _, _ => rfl
  | j + 1, m, b, h => by
    simp only [bitsMSB]
    rw [Nat.testBit_mod_two_pow]
    simp [show j < m from by omega, bitsMSB_mod j m b (by omega)]

/-- Feeding `j` pending message bits through the source register equals
folding the specification bit step over those bits, most significant
first. -/
theorem iter_bits : ∀ (j : Nat), j ≤ 16 → ∀ (c b : Nat), c < 65536 →
    b < 2 ^ j →
    crcShift^[j] (c ^^^ b * 2 ^ (16 - j)) =
      List.foldl crcSpecBit c (bitsMSB j b) := by
  intro j
  induction j with
  | zero =>
    intro _ c b hc hb
    rw [pow_zero] at hb
    have hb0 : b = 0 := by omega
    subst hb0
    simp [bitsMSB]
  | succ j ih =>
    intro hj c b hc hb
    have hit : crcShift^[j + 1] (c ^^^ b * 2 ^ (16 - (j + 1))) =
        crcShift^[j] (crcShift (c ^^^ b * 2 ^ (16 - (j + 1)))) :=
      Function.iterate_succ_apply crcShift j _
    rw [hit, show 16 - (j + 1) = 15 - j from by omega,
      crcShift_step c b j (by omega) hc hb]
    have hlist : bitsMSB (j + 1) b = b.testBit j :: bitsMSB j b := rfl
    rw [hlist, List.foldl_cons, ← bitsMSB_mod j j b (Nat.le_refl j)]
    exact ih (by omega) (crcSpecBit c (b.testBit j)) (b % 2 ^ j)
      (crcSpecBit_lt _ hc) (Nat.mod_lt _ (Nat.two_pow_pos j))

theorem crcByte_eq_bits (c b : Nat) (hc : c < 65536) (hb : b < 256) :
    crcByte c b = List.foldl crcSpecBit c (bitsMSB 8 b) := by
  have hp8 : (2 : Nat) ^ 8 = 256 := by norm_num
  have h := iter_bits 8 (by omega) c b hc (by rw [hp8]; omega)
  have hp : (2 : Nat) ^ (16 - 8) = 256 := by norm_num
  rw [hp] at h
  exact h

theorem foldl_crc_eq (bs : List Nat) : ∀ (c : Nat), (∀ b ∈ bs, b < 256) →
    c < 65536 →
    List.foldl crcByte c bs =
      List.foldl crcSpecBit c (bs.flatMap (bitsMSB 8)) := by
  induction bs with
  | nil =>
    intro c _ _
    rfl
  | cons b t ih =>
    intro c h hc
    have hb : b < 256 := h b (List.mem_cons_self _ _)
    rw [List.flatMap_cons, List.foldl_cons, List.foldl_append,
      crcByte_eq_bits c b hc hb]
    have hlt : List.foldl crcSpecBit c (bitsMSB 8 b) < 65536 := by
      rw [← crcByte_eq_bits c b hc hb]
      exact crcByte_lt hc hb
    exact ih _ (fun x hx => h x (List.mem_cons_of_mem _ hx)) hlt

/-- The byte-level CRC the driver computes equals the specification CRC
(polynomial 0x11021, init 0, no reflection, no complement) on every byte
string. -/
theorem crc16_eq_crcSpec (bs : List Nat) (h : ∀ b ∈ bs, b < 256) :
    crc16 bs = crcSpec bs :=
  foldl_crc_eq bs 0 h (by omega)

/-- C2: for every transmissible frame id and payload, the frame written
by `_sendMessage` is exactly `length ++ frameId ++ payload ++ crc`, where
`length = payload.size + 5` as a big-endian uint16 and `crc` is the
16-bit CRC with generator polynomial 0x11021, initial register 0, no
reflection and no complement, computed over all preceding bytes and
appended big-endian. -/
theorem sendMessage_frame_layout (fid : Nat) (P : List Nat) (hf : fid < 256)
    (hP : ∀ b ∈ P, b < 256) (hlen : P.length + 5 < 65536) :
    encodeFrame fid P =
      toBytes2 (P.length + 5) ++ fid :: P ++
        toBytes2 (crcSpec (toBytes2 (P.length + 5) ++ fid :: P)) := by
  unfold encodeFrame
  rw [crc16_eq_crcSpec _ (headWF fid P hf hP)]

/-- Witness for C2: the layout equation at a concrete frame. -/
theorem sendMessage_frame_layout_witness :
    encodeFrame 4 [1, 2, 3] =
      toBytes2 8 ++ 4 :: [1, 2, 3] ++
        toBytes2 (crcSpec (toBytes2 8 ++ 4 :: [1, 2, 3])) := by
  have h := sendMessage_frame_layout 4 [1, 2, 3] (by decide) (by decide)
    (by decide)
  simpa using h

end Pni
